import Mathlib

/-!
# Verification of the cloudfunc-iotcore device-configuration dispatch

A shallow embedding of `cloudfunc-iotcore/main.go` and of the Cloud Function
`UpdateWeather` (the full listing in `cloudfunc-iotcore/README.md`).  The
program marshals a `FanConfig` struct to JSON, base64-encodes the bytes,
formats a device resource path with `fmt.Sprintf`, and issues one
`ModifyCloudToDeviceConfig` call through the registry client.

External library calls (`json.Marshal`, `base64.StdEncoding`, the registry
client, the HTTP response writer) are modelled explicitly: serialization and
transport encoding as executable functions on byte lists, the registry client
as a function-valued parameter (the seam the spec calls RegistryClient), and
client construction (`cloudiot.NewService`) as an `Except`-valued input.
-/

namespace IotDispatch

/-- The configuration struct from the source: fields `On bool` and
`Speed int`, with JSON tags `on` and `speed`.  Go `int` is modelled as `Int`. -/
structure FanConfig where
  On : Bool
  Speed : Int
  deriving DecidableEq, Repr

/-- The device path built by the source line
`fmt.Sprintf("projects/%s/locations/%s/registries/%s/devices/%s", ...)`:
each `%s` verb is string substitution, so the result is this concatenation. -/
def resolvePath (projectID location registryID deviceID : String) : String :=
  "projects/" ++ projectID ++ "/locations/" ++ location ++ "/registries/"
    ++ registryID ++ "/devices/" ++ deviceID

/-- Spec-side definition, for refinement comparison only: the path template
`projects/.../locations/.../registries/.../devices/...` stated in the spec
sections 4.2 and 6. -/
def specDevicePath (p l r d : String) : String :=
  "projects/" ++ p ++ "/locations/" ++ l ++ "/registries/" ++ r
    ++ "/devices/" ++ d

/-- A field is path-safe when it holds no `/`, the character that separates
resource path segments (the illegal character the spec refers to). -/
def pathSafeSegment (s : String) : Bool :=
  s.toList.all fun c => c ≠ '/'

/-! ## Bytes and decimal formatting

JSON texts and base64 inputs are byte lists (`List Nat`, each element a byte
value).  All bytes produced here are ASCII. -/

/-- The bytes of an ASCII string literal. -/
def strBytes (s : String) : List Nat :=
  s.toList.map Char.toNat

/-- Base-ten digits of `n`, least significant first, computed with explicit
fuel so that the function unfolds by kernel reduction. -/
def natDigitsRev (fuel n : Nat) : List Nat :=
  match fuel with
  | 0 => []
  | f + 1 => if n = 0 then [] else n % 10 :: natDigitsRev f (n / 10)

/-- Decimal digits of `n`, most significant first, as ASCII bytes:
the formatting Go `strconv` uses for a non-negative integer. -/
def natDecimalBytes (n : Nat) : List Nat :=
  if n = 0 then [48] else (natDigitsRev n n).reverse.map fun d => 48 + d

/-- Go decimal formatting of a signed integer: a leading `-` byte (45) for
negative values, then the decimal digits of the absolute value. -/
def intDecimalBytes (i : Int) : List Nat :=
  if i < 0 then 45 :: natDecimalBytes i.natAbs else natDecimalBytes i.toNat

/-! ## Go JSON encoding of the payload

`encoding/json` can fail on values its encoder does not support (channels,
functions, non-finite floats).  The value domain below keeps that failure
case (`jUnsupported`), so that marshaling a `FanConfig`, whose two fields are
a bool and an int, is fallible in the model exactly as the call site in the
source treats it. -/

/-- A Go value as seen by `encoding/json`: the kinds a `FanConfig` field can
hold, plus the unsupported kinds on which `json.Marshal` errors. -/
inductive GoJsonValue where
  | jBool (b : Bool)
  | jInt (i : Int)
  | jUnsupported (desc : String)
  deriving DecidableEq, Repr

/-- The `encoding/json` encoder for one value: bools render as `true` or
`false`, integers in decimal; unsupported kinds give an error. -/
def goEncodeValue : GoJsonValue → Except String (List Nat)
  | .jBool true => .ok (strBytes "true")
  | .jBool false => .ok (strBytes "false")
  | .jInt i => .ok (intDecimalBytes i)
  | .jUnsupported desc => .error desc

/-- `json.Marshal` on a `FanConfig`: an object with keys `on` and `speed`
in struct order, i.e. the bytes of `\x7b"on":<On>,"speed":<Speed>\x7d`. -/
def jsonMarshalFanConfig (c : FanConfig) : Except String (List Nat) :=
  match goEncodeValue (.jBool c.On), goEncodeValue (.jInt c.Speed) with
  | .ok onBytes, .ok speedBytes =>
      .ok (strBytes "\x7b\"on\":" ++ onBytes ++ strBytes ",\"speed\":"
        ++ speedBytes ++ strBytes "\x7d")
  | .error e, _ => .error e
  | _, .error e => .error e

/-- The canonical JSON text `json.Marshal` produces for a `FanConfig`,
written out: object opener, key `on`, the boolean, key `speed`, the decimal
integer, object closer. -/
def canonicalJsonBytes (c : FanConfig) : List Nat :=
  strBytes "\x7b\"on\":" ++ (if c.On then strBytes "true" else strBytes "false")
    ++ strBytes ",\"speed\":" ++ intDecimalBytes c.Speed ++ strBytes "\x7d"

/-- Proof-side view of the decimal digits, most significant first, through
`Nat.digits`; `natDigitsRev` is bridged to this below. -/
def decDigits (n : Nat) : List Nat :=
  if n = 0 then [0] else (Nat.digits 10 n).reverse

/-! ## Standard base64 (`encoding/base64` StdEncoding) -/

/-- The standard base64 alphabet, index 0 to 63. -/
def b64Alphabet : List Char :=
  "ABCDEFGHIJKLMNOPQRSTUVWXYZabcdefghijklmnopqrstuvwxyz0123456789+/".toList

/-- The alphabet character for a six-bit value. -/
def sextetToChar (n : Nat) : Char :=
  b64Alphabet.getD n 'A'

/-- The six-bit value of an alphabet character, `none` off the alphabet. -/
def charToSextet (c : Char) : Option Nat :=
  b64Alphabet.findIdx? fun a => a = c

/-- `base64.StdEncoding.EncodeToString`: bytes in groups of three become four
alphabet characters; a final group of one or two bytes is padded with `=`. -/
def encodeB64 : List Nat → List Char
  | [] => []
  | [b1] =>
      [sextetToChar (b1 / 4), sextetToChar (b1 % 4 * 16), '=', '=']
  | [b1, b2] =>
      [sextetToChar (b1 / 4), sextetToChar (b1 % 4 * 16 + b2 / 16),
        sextetToChar (b2 % 16 * 4), '=']
  | b1 :: b2 :: b3 :: rest =>
      sextetToChar (b1 / 4) :: sextetToChar (b1 % 4 * 16 + b2 / 16)
        :: sextetToChar (b2 % 16 * 4 + b3 / 64) :: sextetToChar (b3 % 64)
        :: encodeB64 rest

/-- `base64.StdEncoding.DecodeString`: four characters at a time, `=` padding
only in a final group; like the Go decoder it does not reject nonzero bits
under the padding. -/
def decodeB64 : List Char → Option (List Nat)
  | [] => some []
  | a :: b :: c :: d :: rest =>
    match charToSextet a, charToSextet b with
    | some s1, some s2 =>
      if c = '=' then
        if d = '=' ∧ rest = [] then some [s1 * 4 + s2 / 16] else none
      else
        match charToSextet c with
        | some s3 =>
          if d = '=' then
            if rest = [] then some [s1 * 4 + s2 / 16, s2 % 16 * 16 + s3 / 4]
            else none
          else
            match charToSextet d, decodeB64 rest with
            | some s4, some bs =>
                some ((s1 * 4 + s2 / 16) :: (s2 % 16 * 16 + s3 / 4)
                  :: (s3 % 4 * 64 + s4) :: bs)
            | _, _ => none
        | none => none
    | _, _ => none
  | _ => none

/-! ## The inverse transport direction

The source only encodes; decoding (base64-decode, then deserialize the JSON
bytes) is the inverse stated by the spec roundtrip property.  The JSON
deserializer below is `json.Unmarshal` into `FanConfig` restricted to the
canonical texts `json.Marshal` produces for that struct. -/

/-- Consume an expected literal byte sequence from the front of the input,
returning the remainder, or `none` on a mismatch. -/
def dropLit : List Nat → List Nat → Option (List Nat)
  | [], l => some l
  | _ :: _, [] => none
  | p :: ps, c :: cs => if c = p then dropLit ps cs else none

/-- Take the longest run of ASCII digit bytes from the front, returning the
digit values and the remainder. -/
def takeDigits : List Nat → List Nat × List Nat
  | [] => ([], [])
  | b :: rest =>
    if 48 ≤ b ∧ b ≤ 57 then
      let p := takeDigits rest
      ((b - 48) :: p.1, p.2)
    else ([], b :: rest)

/-- Parse a non-empty run of decimal digits into a natural number. -/
def parseNat (l : List Nat) : Option (Nat × List Nat) :=
  let p := takeDigits l
  if p.1 = [] then none else some (Nat.ofDigits 10 p.1.reverse, p.2)

/-- Parse a JSON integer: an optional `-` sign then decimal digits. -/
def parseInt (l : List Nat) : Option (Int × List Nat) :=
  match l with
  | [] => none
  | b :: rest =>
    if b = 45 then
      match parseNat rest with
      | some (n, r) => some (-(n : Int), r)
      | none => none
    else
      match parseNat (b :: rest) with
      | some (n, r) => some ((n : Int), r)
      | none => none

/-- Parse a JSON boolean literal `true` or `false`. -/
def parseBool (l : List Nat) : Option (Bool × List Nat) :=
  match dropLit (strBytes "true") l with
  | some r => some (true, r)
  | none =>
    match dropLit (strBytes "false") l with
    | some r => some (false, r)
    | none => none

/-- `json.Unmarshal` of a canonical `FanConfig` text: the object opener and
key `on`, a boolean, the key `speed`, an integer, and the closing byte. -/
def fanConfigUnmarshal (l : List Nat) : Option FanConfig :=
  match dropLit (strBytes "\x7b\"on\":") l with
  | none => none
  | some l1 =>
    match parseBool l1 with
    | none => none
    | some (b, l2) =>
      match dropLit (strBytes ",\"speed\":") l2 with
      | none => none
      | some l3 =>
        match parseInt l3 with
        | none => none
        | some (i, l4) => if l4 = strBytes "\x7d" then some ⟨b, i⟩ else none

/-- The transport encoding the program applies to a payload: JSON marshal,
then standard base64 of the bytes (source lines 29 and 35). -/
def transportEncode (c : FanConfig) : Except String String :=
  match jsonMarshalFanConfig c with
  | .ok bs => .ok (String.mk (encodeB64 bs))
  | .error e => .error e

/-- The inverse transport: base64-decode, then deserialize the JSON bytes. -/
def transportDecode (s : String) : Option FanConfig :=
  match decodeB64 s.toList with
  | some bs => fanConfigUnmarshal bs
  | none => none

/-! ## The dispatch pipeline of `main` and of `UpdateWeather` -/

/-- The typed remote errors of the spec registry-client contract. -/
inductive RemoteError where
  | unauthenticated
  | notFound
  | unavailable
  | invalidArgument
  deriving DecidableEq, Repr

/-- One registry call as the source builds it: the device path passed to
`ModifyCloudToDeviceConfig` and the `BinaryData` field of the request. -/
structure RegistryCall where
  path : String
  binaryData : String
  deriving DecidableEq, Repr

/-- The registry-client seam: how the one network call responds. -/
def RegistryClient : Type :=
  RegistryCall → Except RemoteError Unit

/-- How a run of `main` ends, mirroring its early returns: client
construction failed, `json.Marshal` failed, the remote call failed (the
error is printed and kept here), or everything succeeded. -/
inductive MainOutcome where
  | svcError (e : String)
  | marshalError (e : String)
  | callError (e : RemoteError)
  | success
  deriving DecidableEq, Repr

/-- The body of `main` (source lines 17 to 54), with its inputs made
explicit: the outcome of `cloudiot.NewService`, the four path fields the
source assigns to local variables, the payload struct it builds, and the
registry client.  Returns the registry calls issued and the outcome. -/
def runMain (svc : Except String Unit)
    (projectID location registryID deviceID : String)
    (config : FanConfig) (client : RegistryClient) :
    List RegistryCall × MainOutcome :=
  match svc with
  | .error e => ([], .svcError e)
  | .ok _ =>
    match jsonMarshalFanConfig config with
    | .error e => ([], .marshalError e)
    | .ok bs =>
      let encodedString := String.mk (encodeB64 bs)
      let devicePath := resolvePath projectID location registryID deviceID
      let call : RegistryCall := ⟨devicePath, encodedString⟩
      match client call with
      | .error e => ([call], .callError e)
      | .ok _ => ([call], .success)

/-- One write the HTTP handler performs on its response writer. -/
inductive HttpWrite where
  | header (status : Nat)
  | body (s : String)
  deriving DecidableEq, Repr

/-- The Cloud Function `UpdateWeather` (README listing): identical pipeline
to `main` but with payload speed 20, the four hard-coded path constants, and
an HTTP response.  The request argument `r` is of an arbitrary type and, as
in the source, never read.  Returns the registry calls issued and the writes
made on the response writer: nothing on an early return, a 500 header and
error body when the remote call fails, a 200 header and `Success!` body
otherwise. -/
def updateWeather {Req : Type} (_r : Req) (svc : Except String Unit)
    (client : RegistryClient) : List RegistryCall × List HttpWrite :=
  match svc with
  | .error _ => ([], [])
  | .ok _ =>
    match jsonMarshalFanConfig ⟨true, 20⟩ with
    | .error _ => ([], [])
    | .ok bs =>
      let encodedString := String.mk (encodeB64 bs)
      let devicePath := resolvePath "YOUR-GCP-PROJECT-ID" "REGISTRY-LOCATION"
        "REGISTRY-ID" "DEVICE-ID"
      let call : RegistryCall := ⟨devicePath, encodedString⟩
      match client call with
      | .error _ =>
          ([call], [.header 500, .body "500 - Something bad happened!"])
      | .ok _ => ([call], [.header 200, .body "Success!"])

/-- The constant registry call `UpdateWeather` issues whenever it reaches
the remote call. -/
def updateWeatherCall : RegistryCall :=
  ⟨resolvePath "YOUR-GCP-PROJECT-ID" "REGISTRY-LOCATION" "REGISTRY-ID"
      "DEVICE-ID",
    String.mk (encodeB64 (strBytes "\x7b\"on\":true,\"speed\":20\x7d"))⟩

/-! ## Lemmas on the base64 alphabet and the encode/decode pair -/

theorem charToSextet_sextetToChar {n : Nat} (h : n < 64) :
    charToSextet (sextetToChar n) = some n := by
  have hall : ∀ m : Fin 64, charToSextet (sextetToChar m.val) = some m.val := by
    decide
  exact hall ⟨n, h⟩

theorem sextetToChar_ne_pad {n : Nat} (h : n < 64) : sextetToChar n ≠ '=' := by
  have hall : ∀ m : Fin 64, sextetToChar m.val ≠ '=' := by decide
  exact hall ⟨n, h⟩

/-- Decoding inverts encoding on any list of byte values. -/
theorem decodeB64_encodeB64 (bs : List Nat) (h : ∀ b ∈ bs, b < 256) :
    decodeB64 (encodeB64 bs) = some bs := by
  induction bs using encodeB64.induct with
  | case1 => rfl
  | case2 b1 =>
    have hb1 : b1 < 256 := h b1 (by simp)
    have h1 := charToSextet_sextetToChar (n := b1 / 4) (by omega)
    have h2 := charToSextet_sextetToChar (n := b1 % 4 * 16) (by omega)
    simp only [encodeB64, decodeB64, h1, h2]
    simp
    omega
  | case3 b1 b2 =>
    have hb1 : b1 < 256 := h b1 (by simp)
    have hb2 : b2 < 256 := h b2 (by simp)
    have h1 := charToSextet_sextetToChar (n := b1 / 4) (by omega)
    have h2 := charToSextet_sextetToChar (n := b1 % 4 * 16 + b2 / 16) (by omega)
    have h3 := charToSextet_sextetToChar (n := b2 % 16 * 4) (by omega)
    have hne := sextetToChar_ne_pad (n := b2 % 16 * 4) (by omega)
    simp only [encodeB64, decodeB64, h1, h2, h3, if_neg hne, if_pos rfl]
    simp
    constructor <;> omega
  | case4 b1 b2 b3 rest ih =>
    have hb1 : b1 < 256 := h b1 (by simp)
    have hb2 : b2 < 256 := h b2 (by simp)
    have hb3 : b3 < 256 := h b3 (by simp)
    have hrest : ∀ b ∈ rest, b < 256 := fun b hb => h b (by simp [hb])
    have h1 := charToSextet_sextetToChar (n := b1 / 4) (by omega)
    have h2 := charToSextet_sextetToChar (n := b1 % 4 * 16 + b2 / 16) (by omega)
    have h3 := charToSextet_sextetToChar (n := b2 % 16 * 4 + b3 / 64) (by omega)
    have h4 := charToSextet_sextetToChar (n := b3 % 64) (by omega)
    have hne3 := sextetToChar_ne_pad (n := b2 % 16 * 4 + b3 / 64) (by omega)
    have hne4 := sextetToChar_ne_pad (n := b3 % 64) (by omega)
    simp only [encodeB64, decodeB64, h1, h2, h3, h4, if_neg hne3, if_neg hne4,
      ih hrest]
    simp only [Option.some.injEq, List.cons.injEq]
    refine ⟨by omega, by omega, by omega, trivial⟩

/-! ## Lemmas on decimal digits -/

theorem natDigitsRev_eq_digits (fuel n : Nat) (h : n ≤ fuel) :
    natDigitsRev fuel n = Nat.digits 10 n := by
  induction fuel generalizing n with
  | zero =>
    have : n = 0 := by omega
    simp [natDigitsRev, this]
  | succ f ih =>
    by_cases hn : n = 0
    · simp [natDigitsRev, hn]
    · rw [natDigitsRev, if_neg hn,
        Nat.digits_def' (by norm_num) (Nat.pos_of_ne_zero hn),
        ih _ (by omega)]

theorem natDecimalBytes_eq (n : Nat) :
    natDecimalBytes n = (decDigits n).map fun d => 48 + d := by
  by_cases hn : n = 0
  · simp [natDecimalBytes, decDigits, hn]
  · rw [natDecimalBytes, if_neg hn, decDigits, if_neg hn,
      natDigitsRev_eq_digits n n le_rfl]

theorem decDigits_ne_nil (n : Nat) : decDigits n ≠ [] := by
  by_cases hn : n = 0
  · simp [decDigits, hn]
  · rw [decDigits, if_neg hn]
    simpa using Nat.digits_ne_nil_iff_ne_zero.mpr hn

theorem decDigits_lt (n : Nat) : ∀ d ∈ decDigits n, d < 10 := by
  intro d hd
  by_cases hn : n = 0
  · simp [decDigits, hn] at hd
    omega
  · rw [decDigits, if_neg hn, List.mem_reverse] at hd
    exact Nat.digits_lt_base (by norm_num) hd

theorem ofDigits_decDigits (n : Nat) :
    Nat.ofDigits 10 (decDigits n).reverse = n := by
  by_cases hn : n = 0
  · simp [decDigits, hn, Nat.ofDigits]
  · rw [decDigits, if_neg hn, List.reverse_reverse, Nat.ofDigits_digits]

/-! ## Lemmas on the JSON serializer and its inverse -/

theorem jsonMarshal_eq (c : FanConfig) :
    jsonMarshalFanConfig c = .ok (canonicalJsonBytes c) := by
  cases c with
  | mk b s => cases b <;> rfl

theorem dropLit_append (p l : List Nat) : dropLit p (p ++ l) = some l := by
  induction p with
  | nil => rfl
  | cons a ps ih => simp [dropLit, ih]

theorem dropLit_true_false (rest : List Nat) :
    dropLit (strBytes "true") (strBytes "false" ++ rest) = none := by
  have e1 : strBytes "true" = [116, 114, 117, 101] := by decide
  have e2 : strBytes "false" = [102, 97, 108, 115, 101] := by decide
  rw [e1, e2]
  simp [dropLit]

theorem parseBool_true (rest : List Nat) :
    parseBool (strBytes "true" ++ rest) = some (true, rest) := by
  simp only [parseBool, dropLit_append]

theorem parseBool_false (rest : List Nat) :
    parseBool (strBytes "false" ++ rest) = some (false, rest) := by
  simp only [parseBool, dropLit_true_false, dropLit_append]

theorem takeDigits_mapped (ds : List Nat) (hds : ∀ d ∈ ds, d < 10) :
    takeDigits (ds.map (fun d => 48 + d) ++ [125]) = (ds, [125]) := by
  induction ds with
  | nil => decide
  | cons d ds ih =>
    have hd : d < 10 := hds d (by simp)
    have hcond : 48 ≤ 48 + d ∧ 48 + d ≤ 57 := by omega
    simp only [List.map_cons, List.cons_append, takeDigits, if_pos hcond]
    simp [ih fun x hx => hds x (by simp [hx])]

theorem parseNat_decimal (n : Nat) :
    parseNat (natDecimalBytes n ++ [125]) = some (n, [125]) := by
  rw [natDecimalBytes_eq, parseNat]
  simp only [takeDigits_mapped (decDigits n) (decDigits_lt n)]
  rw [if_neg (decDigits_ne_nil n), ofDigits_decDigits]

theorem parseInt_decimal (i : Int) :
    parseInt (intDecimalBytes i ++ [125]) = some (i, [125]) := by
  by_cases hi : i < 0
  · rw [intDecimalBytes, if_pos hi, List.cons_append, parseInt, if_pos rfl,
      parseNat_decimal]
    simp only [Option.some.injEq, Prod.mk.injEq, and_true]
    omega
  · rw [intDecimalBytes, if_neg hi]
    have hne := decDigits_ne_nil i.toNat
    obtain ⟨d, ds, hds⟩ : ∃ d ds, decDigits i.toNat = d :: ds := by
      cases h : decDigits i.toNat with
      | nil => exact absurd h hne
      | cons d ds => exact ⟨d, ds, rfl⟩
    have hcons : natDecimalBytes i.toNat ++ [125]
        = (48 + d) :: (ds.map (fun x => 48 + x) ++ [125]) := by
      rw [natDecimalBytes_eq, hds]
      simp
    rw [hcons, parseInt, if_neg (by omega), ← hcons, parseNat_decimal]
    simp only [Option.some.injEq, Prod.mk.injEq, and_true]
    omega

theorem fanConfigUnmarshal_canonical (c : FanConfig) :
    fanConfigUnmarshal (canonicalJsonBytes c) = some c := by
  obtain ⟨b, s⟩ := c
  have hclose : strBytes "\x7d" = [125] := by decide
  cases b
  · rw [canonicalJsonBytes]
    simp only [hclose, if_false, Bool.false_eq_true, fanConfigUnmarshal,
      List.append_assoc, dropLit_append, parseBool_false, parseInt_decimal,
      if_pos rfl, if_true]
  · rw [canonicalJsonBytes]
    simp only [hclose, if_true, fanConfigUnmarshal, List.append_assoc,
      dropLit_append, parseBool_true, parseInt_decimal, if_pos rfl]

theorem intDecimalBytes_lt (i : Int) : ∀ b ∈ intDecimalBytes i, b < 256 := by
  intro b hb
  have hnat : ∀ n, ∀ x ∈ natDecimalBytes n, x < 256 := by
    intro n x hx
    rw [natDecimalBytes_eq, List.mem_map] at hx
    obtain ⟨d, hd, rfl⟩ := hx
    have := decDigits_lt n d hd
    omega
  rw [intDecimalBytes] at hb
  by_cases hi : i < 0
  · rw [if_pos hi] at hb
    rcases List.mem_cons.mp hb with rfl | hb
    · omega
    · exact hnat _ b hb
  · rw [if_neg hi] at hb
    exact hnat _ b hb

theorem canonicalJsonBytes_lt (c : FanConfig) :
    ∀ b ∈ canonicalJsonBytes c, b < 256 := by
  intro b hb
  have h1 : ∀ x ∈ strBytes "\x7b\"on\":", x < 256 := by decide
  have h2 : ∀ x ∈ strBytes "true", x < 256 := by decide
  have h3 : ∀ x ∈ strBytes "false", x < 256 := by decide
  have h4 : ∀ x ∈ strBytes ",\"speed\":", x < 256 := by decide
  have h5 : ∀ x ∈ strBytes "\x7d", x < 256 := by decide
  rw [canonicalJsonBytes] at hb
  simp only [List.mem_append] at hb
  rcases hb with ((((hb | hb) | hb) | hb) | hb)
  · exact h1 b hb
  · cases hOn : c.On <;> rw [hOn] at hb
    · exact h3 b (by simpa using hb)
    · exact h2 b (by simpa using hb)
  · exact h4 b hb
  · exact intDecimalBytes_lt c.Speed b hb
  · exact h5 b hb

/-- Encode-then-decode on the transport level. -/
theorem transport_roundtrip (c : FanConfig) :
    transportEncode c = .ok (String.mk (encodeB64 (canonicalJsonBytes c)))
      ∧ transportDecode (String.mk (encodeB64 (canonicalJsonBytes c))) = some c := by
  constructor
  · rw [transportEncode, jsonMarshal_eq]
  · rw [transportDecode]
    have htl : (String.mk (encodeB64 (canonicalJsonBytes c))).toList
        = encodeB64 (canonicalJsonBytes c) := rfl
    rw [htl]
    simp only [decodeB64_encodeB64 _ (canonicalJsonBytes_lt c),
      fanConfigUnmarshal_canonical]

/-! ## Lemmas on the dispatch pipelines -/

theorem runMain_calls_path (svc : Except String Unit) (p l r d : String)
    (c : FanConfig) (client : RegistryClient) :
    ∀ call ∈ (runMain svc p l r d c client).1, call.path = resolvePath p l r d := by
  intro call hmem
  cases svc with
  | error e => simp [runMain] at hmem
  | ok u =>
    simp only [runMain, jsonMarshal_eq] at hmem
    cases hc : client ⟨resolvePath p l r d,
        String.mk (encodeB64 (canonicalJsonBytes c))⟩ with
    | error e =>
      rw [hc] at hmem
      simp at hmem
      rw [hmem]
    | ok u2 =>
      rw [hc] at hmem
      simp at hmem
      rw [hmem]

theorem runMain_no_marshal_error (svc : Except String Unit) (p l r d : String)
    (c : FanConfig) (client : RegistryClient) (e : String) :
    (runMain svc p l r d c client).2 ≠ .marshalError e := by
  cases svc with
  | error e2 => simp [runMain]
  | ok u =>
    simp only [runMain, jsonMarshal_eq]
    cases hc : client ⟨resolvePath p l r d,
        String.mk (encodeB64 (canonicalJsonBytes c))⟩ <;> simp [hc]

theorem updateWeather_ok_eq {Req : Type} (r : Req) (client : RegistryClient) :
    updateWeather r (.ok ()) client =
      match client updateWeatherCall with
      | .error _ =>
          ([updateWeatherCall],
            [.header 500, .body "500 - Something bad happened!"])
      | .ok _ => ([updateWeatherCall], [.header 200, .body "Success!"]) := by
  have hcall : (⟨resolvePath "YOUR-GCP-PROJECT-ID" "REGISTRY-LOCATION"
        "REGISTRY-ID" "DEVICE-ID",
      String.mk (encodeB64 (canonicalJsonBytes ⟨true, 20⟩))⟩ : RegistryCall)
        = updateWeatherCall := by decide
  simp only [updateWeather, jsonMarshal_eq]
  rw [hcall]

/-! ## The claims -/

/-- C1: running the dispatch pipeline with payload on `true`, speed `40`,
address fields `proj1`, `us-central1`, `reg1`, `dev1` and a succeeding
registry client resolves the device path to exactly
`projects/proj1/locations/us-central1/registries/reg1/devices/dev1`, sends
`BinaryData` equal to the standard base64 encoding of the bytes of the JSON
text with `on` true and `speed` 40, calls the registry client exactly once,
and ends in success. -/
theorem scenario_dispatch_c1 :
    runMain (.ok ()) "proj1" "us-central1" "reg1" "dev1" ⟨true, 40⟩
        (fun _ => .ok ())
      = ([⟨"projects/proj1/locations/us-central1/registries/reg1/devices/dev1",
            String.mk (encodeB64 (strBytes "\x7b\"on\":true,\"speed\":40\x7d"))⟩],
          .success)
    ∧ (runMain (.ok ()) "proj1" "us-central1" "reg1" "dev1" ⟨true, 40⟩
        (fun _ => .ok ())).1.length = 1 := by
  constructor <;> decide

/-- C2: for every address whose four fields are non-empty and path-safe, the
resolved path is exactly the template
`projects/p/locations/l/registries/r/devices/d` of the spec. -/
theorem resolvePath_format_c2 (p l r d : String)
    (hp : p ≠ "") (hl : l ≠ "") (hr : r ≠ "") (hd : d ≠ "")
    (hps : pathSafeSegment p = true) (hls : pathSafeSegment l = true)
    (hrs : pathSafeSegment r = true) (hds : pathSafeSegment d = true) :
    resolvePath p l r d = specDevicePath p l r d := rfl

/-- Witness for C2 at the concrete address of the scenario. -/
theorem resolvePath_format_c2_witness :
    (("proj1" : String) ≠ "" ∧ pathSafeSegment "proj1" = true)
      ∧ resolvePath "proj1" "us-central1" "reg1" "dev1"
        = specDevicePath "proj1" "us-central1" "reg1" "dev1" :=
  ⟨⟨by decide, by decide⟩,
    resolvePath_format_c2 "proj1" "us-central1" "reg1" "dev1"
      (by decide) (by decide) (by decide) (by decide)
      (by decide) (by decide) (by decide) (by decide)⟩

/-- C3: for every payload, the transport encoding (JSON marshal, then
standard base64) decodes back (base64-decode, then deserialize the JSON
bytes) to an equal payload: encode-then-decode is the identity. -/
theorem encode_decode_roundtrip_c3 (c : FanConfig) :
    ∃ s, transportEncode c = .ok s ∧ transportDecode s = some c :=
  ⟨String.mk (encodeB64 (canonicalJsonBytes c)),
    (transport_roundtrip c).1, (transport_roundtrip c).2⟩

/-- C4 counterexample: with a registry client that always fails with the
transient `Unavailable` error, the program does not make 3 attempts: it has
no retry loop.  (The claim says the remote call is retried up to the
configured maximum of 3 attempts.) -/
theorem dispatch_retry_cex_c4 :
    (runMain (.ok ()) "proj1" "us-central1" "reg1" "dev1" ⟨true, 40⟩
        (fun _ => .error .unavailable)).1.length ≠ 3 := by
  decide

/-- C4 amended: when the remote call fails with the transient `Unavailable`
error, the single-device dispatch makes exactly one remote call, with no
retry and no backoff, and finishes with a failed outcome carrying that last
error detail rather than raising. -/
theorem dispatch_single_attempt_c4 (p l r d : String) (c : FanConfig) :
    (runMain (.ok ()) p l r d c (fun _ => .error .unavailable)).1.length = 1
    ∧ (runMain (.ok ()) p l r d c (fun _ => .error .unavailable)).2
        = .callError .unavailable := by
  simp [runMain, jsonMarshal_eq]

/-- C5 counterexample: with an empty `projectID` the program neither fails
nor withholds the path: the malformed path
`projects//locations/loc/registries/reg/devices/dev` is built and handed to
the registry client, and the run succeeds.  (The claim says resolution fails
with `InvalidAddressError` on any empty field and never yields a malformed
path.) -/
theorem resolve_empty_no_error_cex_c5 :
    runMain (.ok ()) "" "loc" "reg" "dev" ⟨true, 40⟩ (fun _ => .ok ())
      = ([⟨"projects//locations/loc/registries/reg/devices/dev",
            String.mk (encodeB64 (strBytes "\x7b\"on\":true,\"speed\":40\x7d"))⟩],
          .success) := by
  decide

/-- C5 amended: path resolution performs no validation and cannot fail: for
every four fields, empty or not, it returns the formatted template string,
so an empty field yields a malformed path rather than an error. -/
theorem resolvePath_total_c5 (p l r d : String) :
    resolvePath p l r d = specDevicePath p l r d := rfl

/-- C6 counterexample: when client construction fails, the HTTP handler
writes no response at all, neither a status nor a body.  (The claim says the
handler always produces an HTTP response.) -/
theorem updateWeather_no_response_cex_c6 :
    (updateWeather () (.error "could not create client")
        (fun _ => .ok ())).2 = [] := by
  decide

/-- C6 amended: once client construction and marshaling succeed, the handler
always writes a response: status 200 with body `Success!` when the dispatch
succeeded, and status 500 with body `500 - Something bad happened!` when the
remote call failed; when client construction fails it writes nothing, and
the body is a fixed string, not an enumeration of per-device outcomes. -/
theorem updateWeather_response_c6 (Req : Type) (r : Req)
    (client : RegistryClient) :
    ((updateWeather r (.ok ()) client).2 =
      match client updateWeatherCall with
      | .error _ => [.header 500, .body "500 - Something bad happened!"]
      | .ok _ => [.header 200, .body "Success!"])
    ∧ ∀ e, (updateWeather r (.error e) client).2 = [] := by
  constructor
  · rw [updateWeather_ok_eq]
    cases client updateWeatherCall <;> rfl
  · intro e
    rfl

/-- C7: the resolved device path is a deterministic pure function of the
four address fields: equal fields give equal paths, and every registry call
a run issues carries exactly the path resolved from those four fields, for
every client-construction outcome, payload and client. -/
theorem resolvePath_pure_c7 (p₁ l₁ r₁ d₁ p₂ l₂ r₂ d₂ : String)
    (hp : p₁ = p₂) (hl : l₁ = l₂) (hr : r₁ = r₂) (hd : d₁ = d₂) :
    resolvePath p₁ l₁ r₁ d₁ = resolvePath p₂ l₂ r₂ d₂
    ∧ ∀ (svc : Except String Unit) (c : FanConfig) (client : RegistryClient),
        ∀ call ∈ (runMain svc p₁ l₁ r₁ d₁ c client).1,
          call.path = resolvePath p₁ l₁ r₁ d₁ := by
  subst hp hl hr hd
  exact ⟨rfl, fun svc c client => runMain_calls_path svc p₁ l₁ r₁ d₁ c client⟩

/-- Witness for C7 at the scenario address, with the concrete call the run
issues there. -/
theorem resolvePath_pure_c7_witness :
    resolvePath "proj1" "us-central1" "reg1" "dev1"
        = resolvePath "proj1" "us-central1" "reg1" "dev1"
    ∧ RegistryCall.path
        ⟨"projects/proj1/locations/us-central1/registries/reg1/devices/dev1",
          String.mk (encodeB64 (strBytes "\x7b\"on\":true,\"speed\":40\x7d"))⟩
        = resolvePath "proj1" "us-central1" "reg1" "dev1" :=
  ⟨(resolvePath_pure_c7 "proj1" "us-central1" "reg1" "dev1"
      "proj1" "us-central1" "reg1" "dev1" rfl rfl rfl rfl).1,
    (resolvePath_pure_c7 "proj1" "us-central1" "reg1" "dev1"
      "proj1" "us-central1" "reg1" "dev1" rfl rfl rfl rfl).2
      (.ok ()) ⟨true, 40⟩ (fun _ => .ok ()) _ (by decide)⟩

/-- C8: marshaling a `FanConfig`, a bool field and an int field, always
succeeds, so the serialization-error branch before the remote call is
unreachable: no run ends in a marshal failure. -/
theorem fanConfig_marshal_total_c8 (c : FanConfig) :
    (∃ bs, jsonMarshalFanConfig c = .ok bs)
    ∧ ∀ (svc : Except String Unit) (p l r d : String)
        (client : RegistryClient) (e : String),
          (runMain svc p l r d c client).2 ≠ .marshalError e :=
  ⟨⟨canonicalJsonBytes c, jsonMarshal_eq c⟩,
    fun svc p l r d client e => runMain_no_marshal_error svc p l r d c client e⟩

/-- C9: when client construction fails the handler returns without writing
any status or body; the marshal-failure early return can never fire; and a
500 response is written exactly when the remote registry call fails. -/
theorem updateWeather_error_modes_c9 (Req : Type) (r : Req)
    (client : RegistryClient) :
    (∀ e, (updateWeather r (.error e) client).2 = [])
    ∧ (∀ e, jsonMarshalFanConfig ⟨true, 20⟩ ≠ .error e)
    ∧ ((updateWeather r (.ok ()) client).2
          = [.header 500, .body "500 - Something bad happened!"]
        ↔ ∃ err, client updateWeatherCall = .error err) := by
  refine ⟨fun e => rfl, fun e => by simp [jsonMarshal_eq], ?_⟩
  rw [updateWeather_ok_eq]
  cases hc : client updateWeatherCall with
  | error err => simp [hc]
  | ok u => simp [hc]

/-- C10: the handler ignores the incoming HTTP request entirely: two
invocations with any two requests behave identically, and whenever the
pipeline reaches the remote call it issues exactly the one hard-coded call,
built from the constant path fields and the constant payload with on `true`
and speed `20`. -/
theorem updateWeather_ignores_request_c10 (Req₁ Req₂ : Type)
    (r₁ : Req₁) (r₂ : Req₂) (svc : Except String Unit)
    (client : RegistryClient) :
    updateWeather r₁ svc client = updateWeather r₂ svc client
    ∧ (updateWeather r₁ (.ok ()) client).1 = [updateWeatherCall] := by
  refine ⟨rfl, ?_⟩
  rw [updateWeather_ok_eq]
  cases client updateWeatherCall <;> rfl

end IotDispatch
